import Mathlib

/-!
Verification of the kcdb `.kicad_mod` decoder (`src/kcdb/mod/modDecoder.go`).

The Go file decodes a KiCad footprint document, given as an S-expression AST
produced by the external `github.com/nsf/sexp` library, into a `Module` record.
This file shallowly embeds the decoder: each Go function becomes a Lean
function of the same name, Go `float64` literals become exact rationals
(`ℚ`; the decoder only parses and stores numbers, never computes with them),
and each decode step returns `Except Fail`, where `Fail.err` models an error
value returned by the Go code and `Fail.crash` models a Go runtime panic
raised by one of the `Must*` helpers of the sexp library.
-/

namespace Kcdb

/-- Modelled from the spec: the external S-expression AST (spec 6). A node is
either an atomic literal, carrying its (unquoted) token text, or an ordered
list of child nodes. -/
inductive Node : Type
  | atom (s : String)
  | list (children : List Node)

/-- Outcome of a failing decode step. `err` is an error value returned by the
Go code; `crash` is a Go runtime panic raised by a `Must*` helper of the sexp
library (the Go decoder has no recover, so a crash aborts the process). -/
inductive Fail : Type
  | err (msg : String)
  | crash (msg : String)
  deriving Repr, DecidableEq

/-- Result of a decoding step: a value, or a returned error / runtime panic. -/
abbrev DR (α : Type) := Except Fail α

deriving instance DecidableEq for Except

/-- Numeric value of a digit string, most significant digit first. -/
def digitsVal (cs : List Char) : Nat :=
  cs.foldl (fun a c => a * 10 + (c.toNat - 48)) 0

/-- Character-level part of the float coercion: reads an optional sign,
integer digits, and an optional fractional part (at least one digit in
total), returning the sign bit, the integer-part value, the fractional-part
value and the fractional-digit count. -/
def readDec (s : String) : Option (Bool × Nat × Nat × Nat) :=
  let signed : Bool × List Char :=
    match s.data with
    | '+' :: r => (false, r)
    | '-' :: r => (true, r)
    | r => (false, r)
  let ip := signed.2.takeWhile Char.isDigit
  let rest := signed.2.dropWhile Char.isDigit
  match rest with
  | [] => if ip.isEmpty then none else some (signed.1, digitsVal ip, 0, 0)
  | '.' :: fp =>
    if fp.all Char.isDigit && !(ip.isEmpty && fp.isEmpty) then
      some (signed.1, digitsVal ip, digitsVal fp, fp.length)
    else none
  | _ => none

/-- Modelled from the spec: the float coercion of the sexp library (spec 6,
`asFloat`), for the decimal literals the footprint format uses. Exact
rationals stand in for IEEE float64: the decoder only stores parsed literals
and never computes with them. -/
def parseFloat (s : String) : Option ℚ :=
  (readDec s).map fun r =>
    match r with
    | (neg, ipv, fpv, fpl) =>
      let v : ℚ := (ipv : ℚ) + (fpv : ℚ) / (10 : ℚ) ^ fpl
      if neg then -v else v

/-- Modelled from the spec: the integer coercion of the sexp library (spec 6,
`asInt`): an optional sign followed by one or more digits. -/
def parseInt (s : String) : Option Int :=
  let signed : Int × List Char :=
    match s.data with
    | '+' :: r => (1, r)
    | '-' :: r => (-1, r)
    | r => (1, r)
  if signed.2.isEmpty then none
  else if signed.2.all Char.isDigit then some (signed.1 * (digitsVal signed.2 : Int))
  else none

/-- Modelled from the spec: the `Helper` navigation wrapper of the sexp library
(spec 6). A helper either wraps a node or records a navigation error
(out-of-range child access, child of a scalar); an errored helper is `none`. -/
abbrev Helper := Option Node

/-- Child access, `Helper.Child(i)` (0-based): defined only on list nodes and
in-range indices, an errored helper otherwise. -/
def hChild : Helper → Nat → Helper
  | some (.list cs), i => cs.get? i
  | _, _ => none

/-- Validity test, `Helper.IsValid()`. -/
def hIsValid (h : Helper) : Bool := h.isSome

/-- List test, `Helper.IsList()`: false on errored helpers. -/
def hIsList : Helper → Bool
  | some (.list _) => true
  | _ => false

/-- Scalar test, `Helper.IsScalar()`: false on errored helpers. -/
def hIsScalar : Helper → Bool
  | some (.atom _) => true
  | _ => false

/-- String coercion, `Helper.String()`: the token text of a scalar node; fails
on lists and errored helpers. -/
def hString : Helper → Option String
  | some (.atom s) => some s
  | _ => none

/-- Float coercion, `Helper.Float64()`. -/
def hFloat (h : Helper) : Option ℚ := (hString h).bind parseFloat

/-- Integer coercion, `Helper.Int()`. -/
def hInt (h : Helper) : Option Int := (hString h).bind parseInt

/-- The panicking string coercion, `Helper.MustString()`. -/
def mustString (h : Helper) : DR String :=
  match hString h with
  | some s => .ok s
  | none => .error (.crash "MustString")

/-- The panicking float coercion, `Helper.MustFloat64()`. -/
def mustFloat (h : Helper) : DR ℚ :=
  match hFloat h with
  | some q => .ok q
  | none => .error (.crash "MustFloat64")

/-- Child count through the panicking node accessor,
`Helper.MustNode().NumChildren()`: panics on an errored helper; a scalar node
has zero children. -/
def mustNumChildren : Helper → DR Nat
  | some (.list cs) => .ok cs.length
  | some (.atom _) => .ok 0
  | none => .error (.crash "MustNode")

/-- Child count of a node, `Node.NumChildren()`. -/
def Node.numChildren : Node → Nat
  | .atom _ => 0
  | .list cs => cs.length

/-- The children of a clause node past its leading keyword (indices 1..) —
the range every extractor loop iterates. -/
def Node.args : Node → List Node
  | .atom _ => []
  | .list cs => cs.drop 1

/-- Argument list of a helper known to be valid (used only after a successful
`mustNumChildren`). -/
def hArgs : Helper → List Node
  | some n => n.args
  | none => []

/-- Point2D (modDecoder.go line 12). -/
structure Point2D where
  X : ℚ := 0
  Y : ℚ := 0
  deriving Repr, DecidableEq

/-- FpLine (modDecoder.go line 18). -/
structure FpLine where
  Start : Point2D := {}
  End : Point2D := {}
  Layer : String := ""
  Width : ℚ := 0
  deriving Repr, DecidableEq

/-- FpCircle (modDecoder.go line 26). -/
structure FpCircle where
  Center : Point2D := {}
  End : Point2D := {}
  Layer : String := ""
  Width : ℚ := 0
  deriving Repr, DecidableEq

/-- FpArc (modDecoder.go line 34). -/
structure FpArc where
  Start : Point2D := {}
  End : Point2D := {}
  Layer : String := ""
  Angle : ℚ := 0
  Width : ℚ := 0
  deriving Repr, DecidableEq

/-- FpPoly (modDecoder.go line 43). -/
structure FpPoly where
  At : Point2D := {}
  Points : List Point2D := []
  Layer : String := ""
  Width : ℚ := 0
  deriving Repr, DecidableEq

/-- FpText (modDecoder.go line 51). -/
structure FpText where
  Pos : Point2D := {}
  Kind : String := ""
  Value : String := ""
  Layer : String := ""
  Hidden : Bool := false
  Size : Point2D := {}
  Thickness : ℚ := 0
  deriving Repr, DecidableEq

/-- Drill (modDecoder.go line 75). -/
structure Drill where
  Kind : String := ""
  Scalar : ℚ := 0
  Ellipse : Point2D := {}
  Offset : Point2D := {}
  deriving Repr, DecidableEq

/-- Pad (modDecoder.go line 63). -/
structure Pad where
  Pin : Int := 0
  Kind : String := ""
  Shape : String := ""
  Drill : Drill := {}
  Pos : Point2D := {}
  Size : Point2D := {}
  Layers : List String := []
  deriving Repr, DecidableEq

/-- Module (modDecoder.go line 83). -/
structure Module where
  Name : String := ""
  Tedit : String := ""
  Description : String := ""
  Layer : String := ""
  Position : Point2D := {}
  Clearance : ℚ := 0
  Model : String := ""
  SolderMaskMargin : ℚ := 0
  SolderPasteMargin : ℚ := 0
  SolderPasteRatio : ℚ := 0
  Tags : List String := []
  Attrs : List String := []
  Lines : List FpLine := []
  Arcs : List FpArc := []
  Circles : List FpCircle := []
  Polygons : List FpPoly := []
  Texts : List FpText := []
  Pads : List Pad := []
  deriving Repr, DecidableEq

/-- Loop body of `unmarshalFpLine` (modDecoder.go line 295): iterate the
children of the clause past the keyword, dispatching on the leading
keyword of each child; unrecognized keywords are skipped. -/
def fpLineLoop : List Node → FpLine → DR FpLine
  | [], line => .ok line
  | c :: rest, line =>
    match mustString (hChild (some c) 0) with
    | .error e => .error e
    | .ok kw =>
      if kw = "start" then
        match mustFloat (hChild (some c) 1), mustFloat (hChild (some c) 2) with
        | .ok x, .ok y => fpLineLoop rest { line with Start := ⟨x, y⟩ }
        | .error e, _ => .error e
        | _, .error e => .error e
      else if kw = "end" then
        match mustFloat (hChild (some c) 1), mustFloat (hChild (some c) 2) with
        | .ok x, .ok y => fpLineLoop rest { line with End := ⟨x, y⟩ }
        | .error e, _ => .error e
        | _, .error e => .error e
      else if kw = "layer" then
        match mustString (hChild (some c) 1) with
        | .ok s => fpLineLoop rest { line with Layer := s }
        | .error e => .error e
      else if kw = "width" then
        match mustFloat (hChild (some c) 1) with
        | .ok w => fpLineLoop rest { line with Width := w }
        | .error e => .error e
      else fpLineLoop rest line

/-- unmarshalFpLine (modDecoder.go line 293). -/
def unmarshalFpLine (n : Node) : DR FpLine := fpLineLoop n.args {}

/-- Loop body of `unmarshalFpCircle` (modDecoder.go line 255). -/
def fpCircleLoop : List Node → FpCircle → DR FpCircle
  | [], c0 => .ok c0
  | c :: rest, c0 =>
    match mustString (hChild (some c) 0) with
    | .error e => .error e
    | .ok kw =>
      if kw = "center" then
        match mustFloat (hChild (some c) 1), mustFloat (hChild (some c) 2) with
        | .ok x, .ok y => fpCircleLoop rest { c0 with Center := ⟨x, y⟩ }
        | .error e, _ => .error e
        | _, .error e => .error e
      else if kw = "end" then
        match mustFloat (hChild (some c) 1), mustFloat (hChild (some c) 2) with
        | .ok x, .ok y => fpCircleLoop rest { c0 with End := ⟨x, y⟩ }
        | .error e, _ => .error e
        | _, .error e => .error e
      else if kw = "layer" then
        match mustString (hChild (some c) 1) with
        | .ok s => fpCircleLoop rest { c0 with Layer := s }
        | .error e => .error e
      else if kw = "width" then
        match mustFloat (hChild (some c) 1) with
        | .ok w => fpCircleLoop rest { c0 with Width := w }
        | .error e => .error e
      else fpCircleLoop rest c0

/-- unmarshalFpCircle (modDecoder.go line 253). -/
def unmarshalFpCircle (n : Node) : DR FpCircle := fpCircleLoop n.args {}

/-- Loop body of `unmarshalFpArc` (modDecoder.go line 236). -/
def fpArcLoop : List Node → FpArc → DR FpArc
  | [], a0 => .ok a0
  | c :: rest, a0 =>
    match mustString (hChild (some c) 0) with
    | .error e => .error e
    | .ok kw =>
      if kw = "start" then
        match mustFloat (hChild (some c) 1), mustFloat (hChild (some c) 2) with
        | .ok x, .ok y => fpArcLoop rest { a0 with Start := ⟨x, y⟩ }
        | .error e, _ => .error e
        | _, .error e => .error e
      else if kw = "end" then
        match mustFloat (hChild (some c) 1), mustFloat (hChild (some c) 2) with
        | .ok x, .ok y => fpArcLoop rest { a0 with End := ⟨x, y⟩ }
        | .error e, _ => .error e
        | _, .error e => .error e
      else if kw = "layer" then
        match mustString (hChild (some c) 1) with
        | .ok s => fpArcLoop rest { a0 with Layer := s }
        | .error e => .error e
      else if kw = "width" then
        match mustFloat (hChild (some c) 1) with
        | .ok w => fpArcLoop rest { a0 with Width := w }
        | .error e => .error e
      else if kw = "angle" then
        match mustFloat (hChild (some c) 1) with
        | .ok w => fpArcLoop rest { a0 with Angle := w }
        | .error e => .error e
      else fpArcLoop rest a0

/-- unmarshalFpArc (modDecoder.go line 234). -/
def unmarshalFpArc (n : Node) : DR FpArc := fpArcLoop n.args {}

/-- Inner loop of the `pts` stanza of `unmarshalFpPoly` (modDecoder.go
line 277): each child whose leading keyword is `xy` contributes a point, in
order; any other leading keyword is a returned error carrying the keyword;
the `MustString` on a non-list child panics. -/
def ptsLoop : List Node → List Point2D → DR (List Point2D)
  | [], pts => .ok pts
  | c :: rest, pts =>
    match mustString (hChild (some c) 0) with
    | .error e => .error e
    | .ok kw =>
      if kw = "xy" then
        match mustFloat (hChild (some c) 1), mustFloat (hChild (some c) 2) with
        | .ok x, .ok y => ptsLoop rest (pts ++ [⟨x, y⟩])
        | .error e, _ => .error e
        | _, .error e => .error e
      else
        .error (.err ("cannot handle expression of type \"" ++ kw ++ "\" in fp_poly.pts stanza"))

/-- Loop body of `unmarshalFpPoly` (modDecoder.go line 272). -/
def fpPolyLoop : List Node → FpPoly → DR FpPoly
  | [], p => .ok p
  | c :: rest, p =>
    match mustString (hChild (some c) 0) with
    | .error e => .error e
    | .ok kw =>
      if kw = "at" then
        match mustFloat (hChild (some c) 1), mustFloat (hChild (some c) 2) with
        | .ok x, .ok y => fpPolyLoop rest { p with At := ⟨x, y⟩ }
        | .error e, _ => .error e
        | _, .error e => .error e
      else if kw = "pts" then
        match ptsLoop c.args p.Points with
        | .ok pts => fpPolyLoop rest { p with Points := pts }
        | .error e => .error e
      else if kw = "layer" then
        match mustString (hChild (some c) 1) with
        | .ok s => fpPolyLoop rest { p with Layer := s }
        | .error e => .error e
      else if kw = "width" then
        match mustFloat (hChild (some c) 1) with
        | .ok w => fpPolyLoop rest { p with Width := w }
        | .error e => .error e
      else fpPolyLoop rest p

/-- unmarshalFpPoly (modDecoder.go line 270). -/
def unmarshalFpPoly (n : Node) : DR FpPoly := fpPolyLoop n.args {}

/-- Inner loop of the `effects` case of `unmarshalFpText` (modDecoder.go
line 334): children whose own leading child is not a scalar are skipped;
`size` and `thickness` keywords set the corresponding fields. -/
def effectsLoop : List Node → FpText → DR FpText
  | [], t => .ok t
  | c :: rest, t =>
    if hIsScalar (hChild (some c) 0) then
      match mustString (hChild (some c) 0) with
      | .error e => .error e
      | .ok kw =>
        if kw = "size" then
          match mustFloat (hChild (some c) 1), mustFloat (hChild (some c) 2) with
          | .ok x, .ok y => effectsLoop rest { t with Size := ⟨x, y⟩ }
          | .error e, _ => .error e
          | _, .error e => .error e
        else if kw = "thickness" then
          match mustFloat (hChild (some c) 1) with
          | .ok w => effectsLoop rest { t with Thickness := w }
          | .error e => .error e
        else effectsLoop rest t
    else effectsLoop rest t

/-- Loop body of `unmarshalFpText` over the children from index 3 on
(modDecoder.go line 316): a scalar child is checked against the `hide` flag
and otherwise ignored; a list child dispatches on its leading keyword. The
`effects` case binds the first argument of the effects clause and iterates
the children of that node. -/
def fpTextLoop : List Node → FpText → DR FpText
  | [], t => .ok t
  | .atom s :: rest, t =>
    if s = "hide" then fpTextLoop rest { t with Hidden := true }
    else fpTextLoop rest t
  | c :: rest, t =>
    match mustString (hChild (some c) 0) with
    | .error e => .error e
    | .ok kw =>
      if kw = "at" then
        match mustFloat (hChild (some c) 1), mustFloat (hChild (some c) 2) with
        | .ok x, .ok y => fpTextLoop rest { t with Pos := ⟨x, y⟩ }
        | .error e, _ => .error e
        | _, .error e => .error e
      else if kw = "layer" then
        match mustString (hChild (some c) 1) with
        | .ok s => fpTextLoop rest { t with Layer := s }
        | .error e => .error e
      else if kw = "effects" then
        match mustNumChildren (hChild (some c) 1) with
        | .error e => .error e
        | .ok _ =>
          match effectsLoop (hArgs (hChild (some c) 1)) t with
          | .ok t2 => fpTextLoop rest t2
          | .error e => .error e
      else fpTextLoop rest t

/-- unmarshalFpText (modDecoder.go line 310): the children of the clause at
indices 1 and 2 are the mandatory kind and value (via `MustString`), then the
remaining children are iterated. -/
def unmarshalFpText (n : Node) : DR FpText :=
  match mustString (hChild (some n) 1) with
  | .error e => .error e
  | .ok kind =>
    match mustString (hChild (some n) 2) with
    | .error e => .error e
    | .ok value => fpTextLoop (n.args.drop 2) { Kind := kind, Value := value }

/-- Loop body of `decodeDrill` (modDecoder.go line 354). A list child sets
the offset when its keyword is `offset`. A scalar child that parses as a
float stores the float value of the first clause argument (`n.Child(1)`,
an absolute index) as the round radius; a scalar child that does not parse
becomes the drill kind, the next two siblings become the ellipse half-extents,
and the function returns at once, skipping all remaining children. -/
def drillLoop (n : Node) : List Node → Drill → DR Drill
  | [], d => .ok d
  | c :: rest, d =>
    match c with
    | .list _ =>
      match mustString (hChild (some c) 0) with
      | .error e => .error e
      | .ok kw =>
        if kw = "offset" then
          match mustFloat (hChild (some c) 1), mustFloat (hChild (some c) 2) with
          | .ok x, .ok y => drillLoop n rest { d with Offset := ⟨x, y⟩ }
          | .error e, _ => .error e
          | _, .error e => .error e
        else drillLoop n rest d
    | .atom s =>
      match parseFloat s with
      | none =>
        match mustFloat (rest.get? 0), mustFloat (rest.get? 1) with
        | .ok x, .ok y => .ok { d with Kind := s, Ellipse := ⟨x, y⟩ }
        | .error e, _ => .error e
        | _, .error e => .error e
      | some _ =>
        match mustFloat (hChild (some n) 1) with
        | .ok v => drillLoop n rest { d with Scalar := v }
        | .error e => .error e

/-- decodeDrill (modDecoder.go line 351). -/
def decodeDrill (n : Node) : DR Drill := drillLoop n n.args {}

/-- Inner loop of the `layers` case of `unmarshalPad` (modDecoder.go
line 400): the string value of each child is appended via `MustString`. -/
def layersLoop : List Node → List String → DR (List String)
  | [], acc => .ok acc
  | c :: rest, acc =>
    match mustString (some c) with
    | .ok s => layersLoop rest (acc ++ [s])
    | .error e => .error e

/-- Loop body of `unmarshalPad` over the children from index 4 on
(modDecoder.go line 386). -/
def padLoop : List Node → Pad → DR Pad
  | [], p => .ok p
  | c :: rest, p =>
    match mustString (hChild (some c) 0) with
    | .error e => .error e
    | .ok kw =>
      if kw = "at" then
        match mustFloat (hChild (some c) 1), mustFloat (hChild (some c) 2) with
        | .ok x, .ok y => padLoop rest { p with Pos := ⟨x, y⟩ }
        | .error e, _ => .error e
        | _, .error e => .error e
      else if kw = "size" then
        match mustFloat (hChild (some c) 1), mustFloat (hChild (some c) 2) with
        | .ok x, .ok y => padLoop rest { p with Size := ⟨x, y⟩ }
        | .error e, _ => .error e
        | _, .error e => .error e
      else if kw = "drill" then
        match decodeDrill c with
        | .ok d => padLoop rest { p with Drill := d }
        | .error e => .error e
      else if kw = "layers" then
        match layersLoop c.args p.Layers with
        | .ok ls => padLoop rest { p with Layers := ls }
        | .error e => .error e
      else padLoop rest p

/-- unmarshalPad (modDecoder.go line 376): children 2 and 3 are the mandatory
kind and shape (via `MustString`); child 1 is tried as an integer and on
coercion failure the pin silently stays at its zero default. -/
def unmarshalPad (n : Node) : DR Pad :=
  match mustString (hChild (some n) 2) with
  | .error e => .error e
  | .ok kind =>
    match mustString (hChild (some n) 3) with
    | .error e => .error e
    | .ok shape =>
      let pin : Int :=
        match hInt (hChild (some n) 1) with
        | some v => v
        | none => 0
      padLoop (n.args.drop 3) { Kind := kind, Shape := shape, Pin := pin }

/-- Dispatch on one module-level clause (the body of the loop at
modDecoder.go line 134). A clause that is not a list with a valid child 1 is
skipped. In the `tags` and `attr` cases the Go loop runs once per trailing
child but reads `n.Child(1)` each time, so the string of the first trailing child
is appended `NumChildren - 1` times. -/
def processClause (out : Module) (n : Node) : DR Module :=
  if hIsList (some n) && hIsValid (hChild (some n) 1) then
    match mustString (hChild (some n) 0) with
    | .error e => .error e
    | .ok kw =>
      if kw = "zone_connect" ∨ kw = "path" ∨ kw = "autoplace_cost90" ∨ kw = "autoplace_cost180" then
        .ok out
      else if kw = "layer" then
        match hString (hChild (some n) 1) with
        | some s => .ok { out with Layer := s }
        | none => .error (.err "invalid format: layer value must be a string")
      else if kw = "tedit" then
        match hString (hChild (some n) 1) with
        | some s => .ok { out with Tedit := s }
        | none => .error (.err "invalid format: tedit value must be a string")
      else if kw = "descr" then
        match hString (hChild (some n) 1) with
        | some s => .ok { out with Description := s }
        | none => .error (.err "invalid format: tedit value must be a string")
      else if kw = "tags" then
        if n.numChildren - 1 = 0 then .ok out
        else
          match hString (hChild (some n) 1) with
          | some t => .ok { out with Tags := out.Tags ++ List.replicate (n.numChildren - 1) t }
          | none => .error (.err "invalid format: tag value must be a string")
      else if kw = "attr" then
        if n.numChildren - 1 = 0 then .ok out
        else
          match hString (hChild (some n) 1) with
          | some t => .ok { out with Attrs := out.Attrs ++ List.replicate (n.numChildren - 1) t }
          | none => .error (.err "invalid format: tag value must be a string")
      else if kw = "at" then
        match mustFloat (hChild (some n) 1), mustFloat (hChild (some n) 2) with
        | .ok x, .ok y => .ok { out with Position := ⟨x, y⟩ }
        | .error e, _ => .error e
        | _, .error e => .error e
      else if kw = "clearance" then
        match mustFloat (hChild (some n) 1) with
        | .ok v => .ok { out with Clearance := v }
        | .error e => .error e
      else if kw = "solder_mask_margin" then
        match mustFloat (hChild (some n) 1) with
        | .ok v => .ok { out with SolderMaskMargin := v }
        | .error e => .error e
      else if kw = "solder_paste_margin" then
        match mustFloat (hChild (some n) 1) with
        | .ok v => .ok { out with SolderPasteMargin := v }
        | .error e => .error e
      else if kw = "solder_paste_ratio" then
        match mustFloat (hChild (some n) 1) with
        | .ok v => .ok { out with SolderPasteRatio := v }
        | .error e => .error e
      else if kw = "model" then
        match hString (hChild (some n) 1) with
        | some s => .ok { out with Model := s }
        | none => .error (.err "invalid format: model value must be a string")
      else if kw = "fp_line" then
        match unmarshalFpLine n with
        | .ok v => .ok { out with Lines := out.Lines ++ [v] }
        | .error e => .error e
      else if kw = "fp_circle" then
        match unmarshalFpCircle n with
        | .ok v => .ok { out with Circles := out.Circles ++ [v] }
        | .error e => .error e
      else if kw = "fp_arc" then
        match unmarshalFpArc n with
        | .ok v => .ok { out with Arcs := out.Arcs ++ [v] }
        | .error e => .error e
      else if kw = "fp_poly" then
        match unmarshalFpPoly n with
        | .ok v => .ok { out with Polygons := out.Polygons ++ [v] }
        | .error e => .error e
      else if kw = "fp_text" then
        match unmarshalFpText n with
        | .ok v => .ok { out with Texts := out.Texts ++ [v] }
        | .error e => .error e
      else if kw = "pad" then
        match unmarshalPad n with
        | .ok v => .ok { out with Pads := out.Pads ++ [v] }
        | .error e => .error e
      else
        .error (.err ("cannot handle expression: " ++ kw))
  else .ok out

/-- The clause loop of `DecodeModule` (modDecoder.go line 134), fail-fast. -/
def processClauses (out : Module) : List Node → DR Module
  | [] => .ok out
  | c :: rest =>
    match processClause out c with
    | .ok out2 => processClauses out2 rest
    | .error e => .error e

/-- The body of `DecodeModule` after the parse call (modDecoder.go
line 111): structural checks on the wrapper, the `module` prefix and the
name, then the clause loop. -/
def decodeModuleAST : Node → DR Module
  | .atom _ => .error (.err "invalid format: expected s-expression list at top level")
  | .list cs =>
    match cs with
    | [mainAST] =>
      match mainAST with
      | .atom _ => .error (.err "invalid format: expected s-expression list at 1st level")
      | .list ms =>
        if ms.length < 3 then .error (.err "invalid format: missing minimum elements")
        else
          match hString (ms.get? 0) with
          | none => .error (.err "invalid format: missing module prefix")
          | some s =>
            if s ≠ "module" then .error (.err "invalid format: missing module prefix")
            else
              match hString (ms.get? 1) with
              | none => .error (.err "invalid format: expected string value for module name")
              | some name => processClauses { Name := name } (ms.drop 2)
    | _ => .error (.err "invalid format: top level list of size 1")

/-- DecodeModule (modDecoder.go line 107). Modelled from the spec: the
external parse call (spec 6) returns a node together with an error value;
the Go code binds that error to `err` and never inspects it before `err` is
reused as an assignment target, so the decode runs on the returned node
alone. The argument of this function is exactly the result pair of the parser. -/
def DecodeModule (parsed : Node × Option String) : DR Module :=
  decodeModuleAST parsed.1

/-- The module-level keywords the dispatch switch of `DecodeModule` recognizes
(modDecoder.go lines 138-223), the four ignored keywords included. -/
def moduleVocab : List String :=
  ["zone_connect", "path", "autoplace_cost90", "autoplace_cost180", "layer", "tedit", "descr",
   "tags", "attr", "at", "clearance", "solder_mask_margin", "solder_paste_margin",
   "solder_paste_ratio", "model", "fp_line", "fp_circle", "fp_arc", "fp_poly", "fp_text", "pad"]

/-- Specification-side reading of one `pts` child: the point contributed by a
list node whose leading keyword is `xy` and whose children at positions 1 and 2
coerce to floats; `none` for any other node. -/
def xyVal (c : Node) : Option Point2D :=
  if hString (hChild (some c) 0) = some "xy" then
    match hFloat (hChild (some c) 1), hFloat (hChild (some c) 2) with
    | some x, some y => some ⟨x, y⟩
    | _, _ => none
  else none

/-- Specification-side reading of a whole `pts` child list: the points of its
children, in source order, defined when every child is an `xy` record. -/
def xyVals : List Node → Option (List Point2D)
  | [] => some []
  | c :: rest =>
    match xyVal c, xyVals rest with
    | some p, some ps => some (p :: ps)
    | _, _ => none

/-- No child of the list is a bare atom that fails float parsing (such an atom
is what sends `decodeDrill` into its kind-plus-ellipse branch). -/
def noKindAtom (cs : List Node) : Bool :=
  cs.all fun c =>
    match c with
    | .atom s => (parseFloat s).isSome
    | .list _ => true

/-- No bare atom that parses as a float appears strictly before a bare atom
that does not: the drill clause does not mix a round radius with a later drill
kind keyword. -/
def noMixedDrill : List Node → Bool
  | [] => true
  | .list _ :: rest => noMixedDrill rest
  | .atom s :: rest => if (parseFloat s).isSome then noKindAtom rest else noMixedDrill rest

/-!  Helper lemmas shared by the claim theorems.  -/

/-- The fail-fast clause loop splits over list append. -/
theorem processClauses_append (m : Module) (xs ys : List Node) :
    processClauses m (xs ++ ys) =
      match processClauses m xs with
      | .ok m2 => processClauses m2 ys
      | .error e => .error e := by
  induction xs generalizing m with
  | nil => simp [processClauses]
  | cons c rest ih =>
    simp only [List.cons_append, processClauses]
    cases h : processClause m c with
    | ok m2 => exact ih m2
    | error e => rfl

/-- On a well-formed wrapper with at least one clause, decoding reduces to the
clause loop started from a module holding only the name. -/
theorem decode_wrap (name : String) (c : Node) (cls : List Node) :
    decodeModuleAST (.list [.list (.atom "module" :: .atom name :: c :: cls)]) =
      processClauses { Name := name } (c :: cls) := by
  simp [decodeModuleAST, hString]

/-- While no child is a non-float bare atom, the drill loop never touches the
kind or ellipse fields. -/
theorem drillLoop_noKind (cs : List Node) : ∀ (n : Node) (d d2 : Drill),
    noKindAtom cs = true → drillLoop n cs d = .ok d2 →
    d2.Kind = d.Kind ∧ d2.Ellipse = d.Ellipse := by
  induction cs with
  | nil =>
    intro n d d2 _ hok
    simp only [drillLoop, Except.ok.injEq] at hok
    simp [← hok]
  | cons c rest ih =>
    intro n d d2 hall hok
    simp only [noKindAtom, List.all_cons, Bool.and_eq_true] at hall
    have hrest : noKindAtom rest = true := hall.2
    cases c with
    | atom s =>
      obtain ⟨q, hq⟩ : ∃ q, parseFloat s = some q := by
        have := hall.1
        simp only [Option.isSome_iff_exists] at this
        exact this
      simp only [drillLoop, hq] at hok
      cases hmf : mustFloat (hChild (some n) 1) with
      | error e => simp only [hmf] at hok; exact absurd hok (by simp)
      | ok v =>
        simp only [hmf] at hok
        have h2 := ih n _ d2 hrest hok
        exact h2
    | list l =>
      simp only [drillLoop] at hok
      cases hms : mustString (hChild (some (.list l)) 0) with
      | error e => simp only [hms] at hok; exact absurd hok (by simp)
      | ok kw =>
        simp only [hms] at hok
        by_cases hkw : kw = "offset"
        · rw [if_pos hkw] at hok
          cases hx : mustFloat (hChild (some (.list l)) 1) with
          | error e => simp only [hx] at hok; exact absurd hok (by simp)
          | ok x =>
            cases hy : mustFloat (hChild (some (.list l)) 2) with
            | error e => simp only [hx, hy] at hok; exact absurd hok (by simp)
            | ok y =>
              simp only [hx, hy] at hok
              have h2 := ih n _ d2 hrest hok
              exact h2
        · rw [if_neg hkw] at hok
          exact ih n d d2 hrest hok

/-- Core invariant behind the amended exclusivity claim: starting from zeroed
geometry fields, a drill clause that never places a float atom before a
non-float atom leaves at least one of the two representations zero. -/
theorem drillLoop_noMixed (cs : List Node) : ∀ (n : Node) (d d2 : Drill),
    d.Scalar = 0 → d.Ellipse = ⟨0, 0⟩ → noMixedDrill cs = true →
    drillLoop n cs d = .ok d2 → d2.Scalar = 0 ∨ d2.Ellipse = ⟨0, 0⟩ := by
  induction cs with
  | nil =>
    intro n d d2 hS _ _ hok
    simp only [drillLoop, Except.ok.injEq] at hok
    left; rw [← hok]; exact hS
  | cons c rest ih =>
    intro n d d2 hS hE hmix hok
    cases c with
    | atom s =>
      cases hq : parseFloat s with
      | some q =>
        have hrest : noKindAtom rest = true := by
          simp only [noMixedDrill, hq, Option.isSome_some, if_pos] at hmix
          exact hmix
        simp only [drillLoop, hq] at hok
        cases hmf : mustFloat (hChild (some n) 1) with
        | error e => simp only [hmf] at hok; exact absurd hok (by simp)
        | ok v =>
          simp only [hmf] at hok
          right
          have := (drillLoop_noKind rest n _ d2 hrest hok).2
          rw [this]; exact hE
      | none =>
        simp only [drillLoop, hq] at hok
        cases hx : mustFloat (rest.get? 0) with
        | error e => simp only [hx] at hok; exact absurd hok (by simp)
        | ok x =>
          cases hy : mustFloat (rest.get? 1) with
          | error e => simp only [hx, hy] at hok; exact absurd hok (by simp)
          | ok y =>
            simp only [hx, hy, Except.ok.injEq] at hok
            left; rw [← hok]; exact hS
    | list l =>
      have hmix2 : noMixedDrill rest = true := by
        simpa only [noMixedDrill] using hmix
      simp only [drillLoop] at hok
      cases hms : mustString (hChild (some (.list l)) 0) with
      | error e => simp only [hms] at hok; exact absurd hok (by simp)
      | ok kw =>
        simp only [hms] at hok
        by_cases hkw : kw = "offset"
        · rw [if_pos hkw] at hok
          cases hx : mustFloat (hChild (some (.list l)) 1) with
          | error e => simp only [hx] at hok; exact absurd hok (by simp)
          | ok x =>
            cases hy : mustFloat (hChild (some (.list l)) 2) with
            | error e => simp only [hx, hy] at hok; exact absurd hok (by simp)
            | ok y =>
              simp only [hx, hy] at hok
              exact ih n { d with Offset := ⟨x, y⟩ } d2 hS hE hmix2 hok
        · rw [if_neg hkw] at hok
          exact ih n d d2 hS hE hmix2 hok

/-- The pad clause loop never writes the pin field. -/
theorem padLoop_pin (cs : List Node) : ∀ (p p2 : Pad),
    padLoop cs p = .ok p2 → p2.Pin = p.Pin := by
  induction cs with
  | nil =>
    intro p p2 hok
    simp only [padLoop, Except.ok.injEq] at hok
    rw [← hok]
  | cons c rest ih =>
    intro p p2 hok
    simp only [padLoop] at hok
    repeat' split at hok
    all_goals first
      | (have h2 := ih _ p2 hok; exact h2)
      | simp at hok

/-- Successfully consumed `pts` children append their points in source order. -/
theorem ptsLoop_ok (xs : List Node) : ∀ (acc ps : List Point2D),
    xyVals xs = some ps → ptsLoop xs acc = .ok (acc ++ ps) := by
  induction xs with
  | nil =>
    intro acc ps h
    simp only [xyVals, Option.some.injEq] at h
    simp [ptsLoop, ← h]
  | cons c rest ih =>
    intro acc ps h
    simp only [xyVals] at h
    cases hc : xyVal c with
    | none => rw [hc] at h; simp at h
    | some p =>
      rw [hc] at h
      cases hr : xyVals rest with
      | none => rw [hr] at h; simp at h
      | some ps2 =>
        rw [hr] at h
        simp only [Option.some.injEq] at h
        simp only [xyVal] at hc
        split at hc
        case isFalse => simp at hc
        case isTrue hkw =>
          cases hx : hFloat (hChild (some c) 1) with
          | none => simp only [hx] at hc; simp at hc
          | some x =>
            cases hy : hFloat (hChild (some c) 2) with
            | none => simp only [hx, hy] at hc; simp at hc
            | some y =>
              simp only [hx, hy, Option.some.injEq] at hc
              simp only [ptsLoop, mustString, hkw, mustFloat, hx, hy]
              rw [if_pos trivial]
              have h2 := ih (acc ++ [⟨x, y⟩]) ps2 hr
              rw [h2, ← h, ← hc]
              simp

/-- A non-`xy` list child of `pts` aborts the loop with the error that names
its keyword, whatever well-formed `xy` children precede it. -/
theorem ptsLoop_err (xs : List Node) : ∀ (acc ps : List Point2D) (kw : String)
    (args post : List Node), xyVals xs = some ps → kw ≠ "xy" →
    ptsLoop (xs ++ .list (.atom kw :: args) :: post) acc =
      .error (.err ("cannot handle expression of type \"" ++ kw ++ "\" in fp_poly.pts stanza")) := by
  induction xs with
  | nil =>
    intro acc ps kw args post _ hkw
    simp only [List.nil_append, ptsLoop, mustString, hString, hChild, List.get?]
    rw [if_neg hkw]
  | cons c rest ih =>
    intro acc ps kw args post h hkw
    simp only [xyVals] at h
    cases hc : xyVal c with
    | none => rw [hc] at h; simp at h
    | some p =>
      rw [hc] at h
      cases hr : xyVals rest with
      | none => rw [hr] at h; simp at h
      | some ps2 =>
        simp only [xyVal] at hc
        split at hc
        case isFalse => simp at hc
        case isTrue hkw2 =>
          cases hx : hFloat (hChild (some c) 1) with
          | none => simp only [hx] at hc; simp at hc
          | some x =>
            cases hy : hFloat (hChild (some c) 2) with
            | none => simp only [hx, hy] at hc; simp at hc
            | some y =>
              simp only [List.cons_append, ptsLoop, mustString, hkw2, mustFloat, hx, hy]
              rw [if_pos trivial]
              exact ih (acc ++ [⟨x, y⟩]) ps2 kw args post hr hkw

/-!  Claim theorems.  -/

/-- Evaluations of the float coercion at the literals the concrete claims use,
proved once so that later evaluations of the decoder need no rational
arithmetic inside the kernel. -/
theorem parseFloat_05 : parseFloat "0.5" = some (1/2 : ℚ) := by
  rw [parseFloat, show readDec "0.5" = some (false, 0, 5, 1) from by decide]
  norm_num

theorem parseFloat_06 : parseFloat "0.6" = some (3/5 : ℚ) := by
  rw [parseFloat, show readDec "0.6" = some (false, 0, 6, 1) from by decide]
  norm_num

theorem parseFloat_03 : parseFloat "0.3" = some (3/10 : ℚ) := by
  rw [parseFloat, show readDec "0.3" = some (false, 0, 3, 1) from by decide]
  norm_num

theorem parseFloat_01 : parseFloat "0.1" = some (1/10 : ℚ) := by
  rw [parseFloat, show readDec "0.1" = some (false, 0, 1, 1) from by decide]
  norm_num

theorem parseFloat_02 : parseFloat "0.2" = some (1/5 : ℚ) := by
  rw [parseFloat, show readDec "0.2" = some (false, 0, 2, 1) from by decide]
  norm_num

theorem parseFloat_int0 : parseFloat "0" = some (0 : ℚ) := by
  rw [parseFloat, show readDec "0" = some (false, 0, 0, 0) from by decide]
  norm_num

theorem parseFloat_int1 : parseFloat "1" = some (1 : ℚ) := by
  rw [parseFloat, show readDec "1" = some (false, 1, 0, 0) from by decide]
  norm_num

theorem parseFloat_int2 : parseFloat "2" = some (2 : ℚ) := by
  rw [parseFloat, show readDec "2" = some (false, 2, 0, 0) from by decide]
  norm_num

theorem parseFloat_oval : parseFloat "oval" = none := rfl

/-- C1: decoding the minimal document `(module "M" (layer F.Cu))` succeeds and
yields a Module whose Name is "M", whose Layer is "F.Cu", and whose
collections (Tags, Attrs, Lines, Arcs, Circles, Polygons, Texts, Pads) are all
empty — exactly the record with every other field at its zero default. -/
theorem C1_minimal_document :
    decodeModuleAST (.list [.list [.atom "module", .atom "M",
        .list [.atom "layer", .atom "F.Cu"]]]) =
      .ok { Name := "M", Layer := "F.Cu" } := by decide

/-- C2: evaluation of the code at the failing input of the claim. The tags
loop (and likewise the attr loop) reads child 1 on every iteration instead of
child x, so `(tags a b)` yields Tags = ["a", "a"] (and `(attr x y)` yields
Attrs = ["x", "x"]), not the trailing children in source order that the claim
states. -/
theorem C2_tags_attr_evaluation :
    decodeModuleAST (.list [.list [.atom "module", .atom "M",
        .list [.atom "tags", .atom "a", .atom "b"]]]) =
      .ok { Name := "M", Tags := ["a", "a"] } ∧
    decodeModuleAST (.list [.list [.atom "module", .atom "M",
        .list [.atom "attr", .atom "x", .atom "y"]]]) =
      .ok { Name := "M", Attrs := ["x", "x"] } := by decide

/-- C3 counterexample: in the clause `(drill oval 0.6 0.3 (offset 0.1 0.2))`
the offset sub-clause follows the kind keyword, and because the
kind-plus-ellipse branch returns immediately the decoded Offset stays (0, 0),
not the (0.1, 0.2) the claim requires. -/
theorem C3_counterexample :
    decodeDrill (.list [.atom "drill", .atom "oval", .atom "0.6", .atom "0.3",
        .list [.atom "offset", .atom "0.1", .atom "0.2"]]) =
      .ok { Kind := "oval", Scalar := 0, Ellipse := ⟨3/5, 3/10⟩, Offset := ⟨0, 0⟩ } ∧
    ({ X := 0, Y := 0 } : Point2D) ≠ ⟨1/10, 1/5⟩ := by
  constructor
  · simp [decodeDrill, drillLoop, mustFloat, mustString, hFloat, hString, hChild, Node.args,
      parseFloat_05, parseFloat_06, parseFloat_03, parseFloat_01, parseFloat_02, parseFloat_oval]
  · norm_num [Point2D.mk.injEq]

/-- C3 amended: `(drill 0.5)` yields kind "" and scalar 0.5; `(drill oval 0.6
0.3)` yields kind "oval" and ellipse (0.6, 0.3); an `(offset 0.1 0.2)`
sub-clause sets Offset = (0.1, 0.2) when it is processed before the drill
loop ends — before the kind keyword in the kind branch, or anywhere in a
round-scalar clause whose radius comes first — while the kind branch returns
at once and ignores every later child. -/
theorem C3_amended :
    decodeDrill (.list [.atom "drill", .atom "0.5"]) =
      .ok { Kind := "", Scalar := 1/2, Ellipse := ⟨0, 0⟩, Offset := ⟨0, 0⟩ } ∧
    decodeDrill (.list [.atom "drill", .atom "oval", .atom "0.6", .atom "0.3"]) =
      .ok { Kind := "oval", Scalar := 0, Ellipse := ⟨3/5, 3/10⟩, Offset := ⟨0, 0⟩ } ∧
    decodeDrill (.list [.atom "drill", .list [.atom "offset", .atom "0.1", .atom "0.2"],
        .atom "oval", .atom "0.6", .atom "0.3"]) =
      .ok { Kind := "oval", Scalar := 0, Ellipse := ⟨3/5, 3/10⟩, Offset := ⟨1/10, 1/5⟩ } ∧
    decodeDrill (.list [.atom "drill", .atom "0.5",
        .list [.atom "offset", .atom "0.1", .atom "0.2"]]) =
      .ok { Kind := "", Scalar := 1/2, Ellipse := ⟨0, 0⟩, Offset := ⟨1/10, 1/5⟩ } := by
  refine ⟨?_, ?_, ?_, ?_⟩ <;>
    simp [decodeDrill, drillLoop, mustFloat, mustString, hFloat, hString, hChild, Node.args,
      parseFloat_05, parseFloat_06, parseFloat_03, parseFloat_01, parseFloat_02, parseFloat_oval]

/-- C4 counterexample: the clause `(drill 0.5 oval 0.6 0.3)` decodes without
error to a Drill whose scalar radius and ellipse half-extents are both
nonzero, so a successfully decoded drill clause can populate both geometry
representations. -/
theorem C4_counterexample :
    decodeDrill (.list [.atom "drill", .atom "0.5", .atom "oval", .atom "0.6", .atom "0.3"]) =
      .ok { Kind := "oval", Scalar := 1/2, Ellipse := ⟨3/5, 3/10⟩, Offset := ⟨0, 0⟩ } ∧
    ¬((1 : ℚ)/2 = 0) ∧ ¬(({ X := 3/5, Y := 3/10 } : Point2D) = ⟨0, 0⟩) := by
  refine ⟨?_, by norm_num, by norm_num [Point2D.mk.injEq]⟩
  simp [decodeDrill, drillLoop, mustFloat, mustString, hFloat, hString, hChild, Node.args,
      parseFloat_05, parseFloat_06, parseFloat_03, parseFloat_01, parseFloat_02, parseFloat_oval]

/-- C4 amended: for every drill clause that decodes without error and in which
no float-parsing bare child precedes a non-float-parsing bare child (the mix
the counterexample exploits), at most one of the scalar radius and the
ellipse half-extents differs from its zero value. -/
theorem C4_amended (n : Node) (d : Drill) (hmix : noMixedDrill n.args = true)
    (hok : decodeDrill n = .ok d) : d.Scalar = 0 ∨ d.Ellipse = ⟨0, 0⟩ := by
  unfold decodeDrill at hok
  exact drillLoop_noMixed n.args n {} d rfl rfl hmix hok

/-- C4 witness: the amended theorem applied to the concrete slotted clause
`(drill oval 0.6 0.3)`. -/
theorem C4_witness :
    ({ Kind := "oval", Scalar := 0, Ellipse := ⟨3/5, 3/10⟩, Offset := ⟨0, 0⟩ } : Drill).Scalar = 0 ∨
    ({ Kind := "oval", Scalar := 0, Ellipse := ⟨3/5, 3/10⟩, Offset := ⟨0, 0⟩ } : Drill).Ellipse = ⟨0, 0⟩ :=
  C4_amended (.list [.atom "drill", .atom "oval", .atom "0.6", .atom "0.3"]) _
    (by decide)
    (by simp [decodeDrill, drillLoop, mustFloat, mustString, hFloat, hString, hChild, Node.args,
      parseFloat_05, parseFloat_06, parseFloat_03, parseFloat_01, parseFloat_02, parseFloat_oval])

/-- Variant of the wrapper reduction for a clause list only known nonempty. -/
theorem decode_wrap2 (name : String) (cls : List Node) (h : cls ≠ []) :
    decodeModuleAST (.list [.list (.atom "module" :: .atom name :: cls)]) =
      processClauses { Name := name } cls := by
  match cls, h with
  | c :: cs, _ => exact decode_wrap name c cs

/-- C5 counterexample: the placement clause `(at a b)` has a non-numeric
coordinate, and the decode ends in a MustFloat64 panic (modelled by
`Fail.crash`), not in a returned InvalidField error as the claim states. -/
theorem C5_counterexample :
    decodeModuleAST (.list [.list [.atom "module", .atom "M",
        .list [.atom "at", .atom "a", .atom "b"]]]) = .error (.crash "MustFloat64") := by
  decide

/-- C5 amended: a coercion failure on a string-typed field (layer, tedit,
descr, model) returns an error naming the field, except that the descr error
message names tedit; a coercion failure on a numeric field (placement
position, clearance, solder-mask margin, solder-paste margin, solder-paste
ratio) raises a MustFloat64 panic instead of returning an error. -/
theorem C5_amended :
    (∀ arg : Node, hString (some arg) = none →
       decodeModuleAST (.list [.list [.atom "module", .atom "M", .list [.atom "layer", arg]]]) =
         .error (.err "invalid format: layer value must be a string") ∧
       decodeModuleAST (.list [.list [.atom "module", .atom "M", .list [.atom "tedit", arg]]]) =
         .error (.err "invalid format: tedit value must be a string") ∧
       decodeModuleAST (.list [.list [.atom "module", .atom "M", .list [.atom "descr", arg]]]) =
         .error (.err "invalid format: tedit value must be a string") ∧
       decodeModuleAST (.list [.list [.atom "module", .atom "M", .list [.atom "model", arg]]]) =
         .error (.err "invalid format: model value must be a string")) ∧
    (∀ (kw a : String),
       kw ∈ ["at", "clearance", "solder_mask_margin", "solder_paste_margin",
         "solder_paste_ratio"] →
       parseFloat a = none →
       decodeModuleAST (.list [.list [.atom "module", .atom "M", .list [.atom kw, .atom a]]]) =
         .error (.crash "MustFloat64")) := by
  constructor
  · intro arg harg
    cases arg with
    | atom s => simp [hString] at harg
    | list l => exact ⟨rfl, rfl, rfl, rfl⟩
  · intro kw a hmem hpf
    simp only [List.mem_cons, List.mem_singleton, List.not_mem_nil, or_false] at hmem
    rcases hmem with rfl | rfl | rfl | rfl | rfl <;>
      simp [decode_wrap, processClauses, processClause, mustString, mustFloat, hFloat,
        hString, hChild, hIsList, hIsValid, hpf]

/-- C5 witness: the amended theorem applied to the clause `(layer ())`, whose
argument is a list and so fails string coercion, and to the clause `(at z)`,
whose argument fails float coercion. -/
theorem C5_witness :
    decodeModuleAST (.list [.list [.atom "module", .atom "M",
        .list [.atom "layer", .list []]]]) =
      .error (.err "invalid format: layer value must be a string") ∧
    decodeModuleAST (.list [.list [.atom "module", .atom "M",
        .list [.atom "at", .atom "z"]]]) =
      .error (.crash "MustFloat64") :=
  ⟨(C5_amended.1 (.list []) rfl).1, C5_amended.2 "at" "z" (by decide) (by decide)⟩

/-- C6 counterexample: a `pts` child that is the bare atom 7 is not an xy
record, yet the decode does not fail with the UnsupportedPointKind error
carrying a keyword — it ends in a MustString panic, because the code asks the
atom for a child. -/
theorem C6_counterexample :
    decodeModuleAST (.list [.list [.atom "module", .atom "M",
        .list [.atom "fp_poly", .list [.atom "pts", .atom "7"]]]]) =
      .error (.crash "MustString") := by
  decide

/-- C6 amended: every list child of `pts` whose leading keyword is xy and
whose children 1 and 2 coerce to floats is decoded to a point and appended in
exact source order; a list child with any other leading keyword fails the
whole decode with the UnsupportedPointKind error carrying that keyword; a
non-list child of `pts` raises a MustString panic instead. -/
theorem C6_amended :
    (∀ (xs : List Node) (ps : List Point2D), xyVals xs = some ps →
       unmarshalFpPoly (.list [.atom "fp_poly", .list (.atom "pts" :: xs)]) =
         .ok { Points := ps }) ∧
    (∀ (xs post : List Node) (ps : List Point2D) (kw : String) (args : List Node),
       xyVals xs = some ps → kw ≠ "xy" →
       unmarshalFpPoly (.list [.atom "fp_poly",
           .list (.atom "pts" :: (xs ++ .list (.atom kw :: args) :: post))]) =
         .error (.err ("cannot handle expression of type \"" ++ kw ++
           "\" in fp_poly.pts stanza"))) ∧
    ptsLoop [.atom "7"] [] = .error (.crash "MustString") := by
  refine ⟨?_, ?_, by decide⟩
  · intro xs ps h
    have hp := ptsLoop_ok xs [] ps h
    simp [unmarshalFpPoly, Node.args, fpPolyLoop, mustString, hString, hChild, hp]
  · intro xs post ps kw args h hkw
    have hp := ptsLoop_err xs [] ps kw args post h hkw
    simp [unmarshalFpPoly, Node.args, fpPolyLoop, mustString, hString, hChild, hp]

/-- C6 witness: the amended theorem applied to the point list
`(xy 0 0)(xy 1 0)(xy 1 1)` and to the same list followed by `(uv 3 4)`. -/
theorem C6_witness :
    unmarshalFpPoly (.list [.atom "fp_poly", .list [.atom "pts",
        .list [.atom "xy", .atom "0", .atom "0"],
        .list [.atom "xy", .atom "1", .atom "0"],
        .list [.atom "xy", .atom "1", .atom "1"]]]) =
      .ok { Points := [⟨0, 0⟩, ⟨1, 0⟩, ⟨1, 1⟩] } ∧
    unmarshalFpPoly (.list [.atom "fp_poly", .list [.atom "pts",
        .list [.atom "xy", .atom "0", .atom "0"],
        .list [.atom "uv", .atom "3", .atom "4"]]]) =
      .error (.err ("cannot handle expression of type \"uv\" in fp_poly.pts stanza")) := by
  constructor
  · exact C6_amended.1 _ [⟨0, 0⟩, ⟨1, 0⟩, ⟨1, 1⟩]
      (by simp [xyVals, xyVal, hFloat, hString, hChild, parseFloat_int0, parseFloat_int1])
  · exact C6_amended.2.1 [.list [.atom "xy", .atom "0", .atom "0"]] [] [⟨0, 0⟩] "uv"
      [.atom "3", .atom "4"]
      (by simp [xyVals, xyVal, hFloat, hString, hChild, parseFloat_int0]) (by decide)

/-- C7: a module-level clause that is a list of at least 2 children whose
leading keyword is not in the recognized vocabulary fails the whole decode
with the UnrecognizedClause error carrying the offending keyword, provided
the clauses before it processed without error (fail-fast). -/
theorem C7_unrecognized_clause (name kw : String) (a : Node) (args pre post : List Node)
    (m1 : Module) (hkw : kw ∉ moduleVocab)
    (hpre : processClauses { Name := name } pre = .ok m1) :
    decodeModuleAST (.list [.list (.atom "module" :: .atom name ::
        (pre ++ .list (.atom kw :: a :: args) :: post))]) =
      .error (.err ("cannot handle expression: " ++ kw)) := by
  simp only [moduleVocab, List.mem_cons, List.not_mem_nil, or_false, not_or] at hkw
  have hc : processClause m1 (.list (.atom kw :: a :: args)) =
      .error (.err ("cannot handle expression: " ++ kw)) := by
    simp [processClause, hIsList, hIsValid, hChild, mustString, hString, hkw]
  rw [decode_wrap2 name _ (by simp)]
  simp only [processClauses_append, hpre, processClauses, hc]

/-- C7 witness: the theorem applied to `(module "M" (bogus_clause 1 2))`. -/
theorem C7_witness :
    decodeModuleAST (.list [.list [.atom "module", .atom "M",
        .list [.atom "bogus_clause", .atom "1", .atom "2"]]]) =
      .error (.err "cannot handle expression: bogus_clause") :=
  C7_unrecognized_clause "M" "bogus_clause" (.atom "1") [.atom "2"] [] []
    { Name := "M" } (by decide) rfl

/-- C8: a pad clause whose child 1 fails integer coercion decodes (when the
rest of the clause decodes) with Pin left at its zero default and no error;
when child 1 coerces to the integer 1 the decoded pad has Pin = 1. -/
theorem C8_pad_pin :
    (∀ (s kind shape : String) (rest : List Node) (p : Pad),
       parseInt s = none →
       unmarshalPad (.list (.atom "pad" :: .atom s :: .atom kind :: .atom shape :: rest)) =
         .ok p →
       p.Pin = 0) ∧
    (∀ (s kind shape : String) (rest : List Node) (p : Pad),
       parseInt s = some 1 →
       unmarshalPad (.list (.atom "pad" :: .atom s :: .atom kind :: .atom shape :: rest)) =
         .ok p →
       p.Pin = 1) := by
  constructor
  · intro s kind shape rest p hs hok
    have h2c : hChild (some (Node.list (.atom "pad" :: .atom s :: .atom kind ::
        .atom shape :: rest))) 2 = some (.atom kind) := rfl
    have h3c : hChild (some (Node.list (.atom "pad" :: .atom s :: .atom kind ::
        .atom shape :: rest))) 3 = some (.atom shape) := rfl
    have h1c : hChild (some (Node.list (.atom "pad" :: .atom s :: .atom kind ::
        .atom shape :: rest))) 1 = some (.atom s) := rfl
    have hargs : (Node.list (.atom "pad" :: .atom s :: .atom kind ::
        .atom shape :: rest)).args.drop 3 = rest := rfl
    simp only [unmarshalPad, h2c, h3c, h1c, hargs, mustString, hString, hInt,
      Option.some_bind, hs] at hok
    have h2 := padLoop_pin rest _ p hok
    exact h2
  · intro s kind shape rest p hs hok
    have h2c : hChild (some (Node.list (.atom "pad" :: .atom s :: .atom kind ::
        .atom shape :: rest))) 2 = some (.atom kind) := rfl
    have h3c : hChild (some (Node.list (.atom "pad" :: .atom s :: .atom kind ::
        .atom shape :: rest))) 3 = some (.atom shape) := rfl
    have h1c : hChild (some (Node.list (.atom "pad" :: .atom s :: .atom kind ::
        .atom shape :: rest))) 1 = some (.atom s) := rfl
    have hargs : (Node.list (.atom "pad" :: .atom s :: .atom kind ::
        .atom shape :: rest)).args.drop 3 = rest := rfl
    simp only [unmarshalPad, h2c, h3c, h1c, hargs, mustString, hString, hInt,
      Option.some_bind, hs] at hok
    have h2 := padLoop_pin rest _ p hok
    exact h2

/-- C8 witness: the theorem applied to `(pad "" smd rect)` (empty atom, not an
integer) and to `(pad 1 smd rect)`. -/
theorem C8_witness :
    ({ Pin := 0, Kind := "smd", Shape := "rect" } : Pad).Pin = 0 ∧
    ({ Pin := 1, Kind := "smd", Shape := "rect" } : Pad).Pin = 1 :=
  ⟨C8_pad_pin.1 "" "smd" "rect" [] _ (by decide) (by decide),
   C8_pad_pin.2 "1" "smd" "rect" [] _ (by decide) (by decide)⟩

/-- C9 counterexample: in `(fp_text reference R1 (effects (size 1 2)
(thickness 0.3)))` the size and thickness clauses are direct children of the
effects clause, and both fields stay at their zero defaults — the code
iterates the children of the first argument of effects, not the children of
effects itself as the claim states. -/
theorem C9_counterexample :
    unmarshalFpText (.list [.atom "fp_text", .atom "reference", .atom "R1",
        .list [.atom "effects", .list [.atom "size", .atom "1", .atom "2"],
          .list [.atom "thickness", .atom "0.3"]]]) =
      .ok { Kind := "reference", Value := "R1" } ∧
    ({ X := 0, Y := 0 } : Point2D) ≠ ⟨1, 2⟩ := by
  refine ⟨by decide, by norm_num [Point2D.mk.injEq]⟩

/-- C9 amended: the children of the first argument of the effects clause are
iterated, so with the conventional font wrapper a nested size clause sets the
two-axis render size and a nested thickness clause sets the stroke thickness,
each independently optional (absence leaves the field at its zero default). -/
theorem C9_amended :
    unmarshalFpText (.list [.atom "fp_text", .atom "reference", .atom "R1",
        .list [.atom "effects", .list [.atom "font",
          .list [.atom "size", .atom "1", .atom "2"],
          .list [.atom "thickness", .atom "0.3"]]]]) =
      .ok { Kind := "reference", Value := "R1", Size := ⟨1, 2⟩, Thickness := 3/10 } ∧
    unmarshalFpText (.list [.atom "fp_text", .atom "reference", .atom "R1",
        .list [.atom "effects", .list [.atom "font",
          .list [.atom "size", .atom "1", .atom "2"]]]]) =
      .ok { Kind := "reference", Value := "R1", Size := ⟨1, 2⟩ } ∧
    unmarshalFpText (.list [.atom "fp_text", .atom "reference", .atom "R1",
        .list [.atom "effects", .list [.atom "font",
          .list [.atom "thickness", .atom "0.3"]]]]) =
      .ok { Kind := "reference", Value := "R1", Thickness := 3/10 } ∧
    unmarshalFpText (.list [.atom "fp_text", .atom "reference", .atom "R1",
        .list [.atom "effects", .list [.atom "font"]]]) =
      .ok { Kind := "reference", Value := "R1" } := by
  refine ⟨?_, ?_, ?_, by decide⟩ <;>
    simp [unmarshalFpText, fpTextLoop, effectsLoop, mustString, mustFloat, mustNumChildren,
      hArgs, Node.args, hFloat, hString, hChild, hIsScalar, parseFloat_int1, parseFloat_int2,
      parseFloat_03]

/-- C10: DecodeModule discards the error component of the parse result — the
outcome depends only on the returned node — and on a node that fails the
structural checks the structural error is what the caller sees, whatever the
parse error was. -/
theorem C10_parse_error_discarded :
    (∀ (ast : Node) (e1 e2 : Option String), DecodeModule (ast, e1) = DecodeModule (ast, e2)) ∧
    (∀ (ast : Node) (e : Option String), DecodeModule (ast, e) = decodeModuleAST ast) ∧
    DecodeModule (.atom "x", some "tokenization failure") =
      .error (.err "invalid format: expected s-expression list at top level") :=
  ⟨fun _ _ _ => rfl, fun _ _ => rfl, rfl⟩

end Kcdb
